import Mathlib

/-!
Shallow embedding of the event/navigation core of the repository
(src/src/eventBus.ts, src/src/navigationManager.ts,
src/src/screensaverManager.ts, src/src/settingsManager.ts),
together with theorems settling the frozen claims about it.

Times and coordinates are modelled as `Int` (JavaScript millisecond
timestamps and pixel coordinates); identifiers and event names as
`String`.  The host clock (`Date.now()`) and fresh GUIDs are passed in
as explicit parameters.  The JavaScript `Array.prototype.sort`, which
the ECMAScript standard requires to be stable, is modelled with
`List.mergeSort`, the stable sort of the Lean core library.
-/

namespace Interactiv

/-- One entry of the Orchestrator queue (class `ApplicationEventQueueItem`
in eventBus.ts).  The payload `params` is opaque to the queue; the only
payload content any claim depends on is the target page/view id of a
navigation request, so it is modelled as an optional id.  `expiry` is
carried by the source constructor but never read anywhere in the
repository. -/
structure ApplicationEventQueueItem where
  instanceIdentifier : String
  eventBusId : String
  eventId : String
  priority : String
  scheduleFor : Int
  expiry : Option Int
  params : Option String
deriving DecidableEq

namespace EventOrchestrator

/-- The priority table of `getPrioritisedEventFromQueue`
(`priorityOrder[a.priority] || 4`): scheduled 1, immediate 2,
animation 3, anything else 4. -/
def priorityOrder (priority : String) : Int :=
  if priority = "scheduled" then 1
  else if priority = "immediate" then 2
  else if priority = "animation" then 3
  else 4

/-- The filter applied before selection: a scheduled item is available
only once `scheduleFor <= currentTime`; every other item is always
available. -/
def isAvailable (currentTime : Int) (event : ApplicationEventQueueItem) : Bool :=
  if event.priority = "scheduled" then decide (event.scheduleFor ≤ currentTime)
  else true

/-- The sort comparator of `getPrioritisedEventFromQueue`, read as the
non-strict order used by a stable ascending sort: `a` may come before
`b` iff the JavaScript comparator returns a value at most 0, that is,
first by the priority table and then by `scheduleFor`. -/
def cmpLe (a b : ApplicationEventQueueItem) : Bool :=
  let aPriority := priorityOrder a.priority
  let bPriority := priorityOrder b.priority
  if aPriority ≠ bPriority then decide (aPriority < bPriority)
  else decide (a.scheduleFor ≤ b.scheduleFor)

/-- `EventOrchestrator.getPrioritisedEventFromQueue`: filter the queue
down to available items, stable-sort by the comparator, take the first
element, and remove exactly that occurrence from the queue (indexOf +
splice).  Returns the selected item (if any) and the remaining queue. -/
def getPrioritisedEventFromQueue (currentTime : Int)
    (eventQueue : List ApplicationEventQueueItem) :
    Option ApplicationEventQueueItem × List ApplicationEventQueueItem :=
  let availableEvents := eventQueue.filter (fun event => isAvailable currentTime event)
  match (availableEvents.mergeSort cmpLe).head? with
  | none => (none, eventQueue)
  | some nextEvent => (some nextEvent, eventQueue.erase nextEvent)

/-- The coalescing condition of `enqueue`: the event targets the
navigation manager channel with one of the two reserved navigation
request names. -/
def reservedNavigationPair (event forBus : String) : Bool :=
  forBus = "navigation-manager" &&
    (event = "navigate-to-page" || event = "navigate-to-view")

/-- `EventOrchestrator.removeQueuedNavigationEvents`: drop every queued
item with the identical (eventBusId, eventId) pair. -/
def removeQueuedNavigationEvents (eventId eventBusId : String)
    (eventQueue : List ApplicationEventQueueItem) :
    List ApplicationEventQueueItem :=
  eventQueue.filter (fun item => !(item.eventBusId = eventBusId && item.eventId = eventId))

/-- `EventOrchestrator.enqueue`: coalesce reserved navigation requests,
then append a fresh item at the tail.  `now` models `Date.now()` (the
default of the item constructor when no schedule is given) and `guid`
the generated instance identifier. -/
def enqueue (eventQueue : List ApplicationEventQueueItem)
    (event forBus priority : String) (params : Option String)
    (scheduleFor expiry : Option Int)
    (now : Int) (guid : String) : List ApplicationEventQueueItem :=
  let eventQueue :=
    if reservedNavigationPair event forBus then
      removeQueuedNavigationEvents event forBus eventQueue
    else eventQueue
  eventQueue ++ [⟨guid, forBus, event, priority, scheduleFor.getD now, expiry, params⟩]

/-- Mutation of the first queued item carrying the identifier, used by
`rescheduleQueuedEvent` (the `filter(...)[0]` alias into the queue). -/
def setScheduleForOfFirst (eventQueue : List ApplicationEventQueueItem)
    (id : String) (newSchedule : Int) : List ApplicationEventQueueItem :=
  match eventQueue with
  | [] => []
  | item :: rest =>
    if item.instanceIdentifier = id then { item with scheduleFor := newSchedule } :: rest
    else item :: setScheduleForOfFirst rest id newSchedule

/-- `EventOrchestrator.rescheduleQueuedEvent`: writes `scheduleFor`
through `eventQueue.filter(e => e.instanceIdentifier === id)[0]`.  When
no queued item carries the identifier the indexing yields `undefined`
and the property write throws a TypeError, modelled as `Except.error`. -/
def rescheduleQueuedEvent (eventQueue : List ApplicationEventQueueItem)
    (id : String) (newSchedule : Int) :
    Except String (List ApplicationEventQueueItem) :=
  match eventQueue.filter (fun e => e.instanceIdentifier = id) with
  | [] => .error "TypeError: cannot set property scheduleFor of undefined"
  | _ :: _ => .ok (setScheduleForOfFirst eventQueue id newSchedule)

/-- A scheduling-loop configuration of the Orchestrator: the queue, the
names of the registered buses, the number of `requestAnimationFrame`
callbacks registered for the upcoming animation frame, the abort flag,
and the items emitted so far (in emission order). -/
structure LoopState where
  eventQueue : List ApplicationEventQueueItem
  eventBuses : List String
  pending : Nat
  abortCommand : Bool
  dispatched : List ApplicationEventQueueItem
deriving DecidableEq

/-- `EventOrchestrator.processNextQueueItem`: select with
`getPrioritisedEventFromQueue` and emit to the first bus whose id
matches; the selected item leaves the queue whether or not a bus
matches. -/
def processNextQueueItem (now : Int) (st : LoopState) : LoopState :=
  match getPrioritisedEventFromQueue now st.eventQueue with
  | (some nextEvent, rest) =>
    if st.eventBuses.contains nextEvent.eventBusId then
      { st with eventQueue := rest, dispatched := st.dispatched ++ [nextEvent] }
    else
      { st with eventQueue := rest }
  | (none, rest) => { st with eventQueue := rest }

/-- One invocation of the `processQueue` closure inside
`EventOrchestrator.run`.  A `requestAnimationFrame` registration made
while the current animation frame runs its callbacks fires only in the
NEXT frame, so each registration increments `pending` rather than
running in the same frame. -/
def processQueueCallback (now : Int) (st : LoopState) : LoopState :=
  if st.abortCommand then st
  else
    let st :=
      if st.eventQueue.length > 0 then
        let st := processNextQueueItem now st
        if st.eventQueue.length > 0 then { st with pending := st.pending + 1 }
        else st
      else st
    if !st.abortCommand then { st with pending := st.pending + 1 } else st

/-- Run `n` registered callbacks in order. -/
def runCallbacks (now : Int) : Nat → LoopState → LoopState
  | 0, st => st
  | n + 1, st => runCallbacks now n (processQueueCallback now st)

/-- One host animation frame (one tick): exactly the callbacks that were
registered before the frame run; registrations made during the frame
are deferred to the following frame. -/
def runFrame (now : Int) (st : LoopState) : LoopState :=
  runCallbacks now st.pending { st with pending := 0 }

end EventOrchestrator

namespace EventBus

/-- One entry of `activeListeners`: the event name and whether the
underlying DOM listener is still attached (`remove` aborts it via the
AbortController but never deletes the record from the array). -/
structure EventListenerRecord where
  eventName : String
  live : Bool
deriving DecidableEq

/-- `EventBus.on` (named `onEvent` here because `on` is reserved in
Lean): attach a listener and push its record. -/
def onEvent (activeListeners : List EventListenerRecord) (type : String) :
    List EventListenerRecord :=
  activeListeners ++ [⟨type, true⟩]

/-- `EventBus.remove`:
`activeListeners.filter(l => l.eventName === type)[0].remove()` aborts
the first matching record via its AbortController.  The record stays in
`activeListeners`.  With no matching record the indexing yields
undefined and the call throws a TypeError. -/
def remove (activeListeners : List EventListenerRecord) (type : String) :
    Except String (List EventListenerRecord) :=
  match activeListeners with
  | [] => .error "TypeError: cannot call remove of undefined"
  | l :: rest =>
    if l.eventName = type then .ok ({ l with live := false } :: rest)
    else (remove rest type).map (l :: ·)

/-- Observable outcome of one `EventBus.emit` call:
`violationReported` is true when `validateEventDispatch` threw (the
error is caught and logged, never rethrown), `dispatched` when
`dispatchEvent` ran, and `handlersInvoked` counts the listeners still
attached for the name. -/
structure EmitResult where
  violationReported : Bool
  dispatched : Bool
  handlersInvoked : Nat
deriving DecidableEq

/-- `EventBus.emit` with `validateEventDispatch` inlined: the violation
is detected by counting `activeListeners` records of the name —
including records whose listener was already cancelled. -/
def emit (activeListeners : List EventListenerRecord) (type : String) :
    EmitResult :=
  if (activeListeners.filter (fun l => l.eventName = type)).length = 0 then
    ⟨true, false, 0⟩
  else
    ⟨false, true,
      (activeListeners.filter (fun l => l.eventName == type && l.live)).length⟩

end EventBus

deriving instance DecidableEq for Except

namespace NavigationManager

/-- The three navigation keys of the shared state store
(`navigation.currentPageId`, `navigation.currentViewId`,
`navigation.isTransitioning`). -/
structure NavigationState where
  currentPageId : Option String
  currentViewId : Option String
  isTransitioning : Bool
deriving DecidableEq

/-- Events published on the navigation-manager bus by the internal
navigation routines. -/
inductive NavEvent where
  | pageChanged (newPageId : String) (previousPageId : Option String)
  | viewChanged (newViewId : String) (previousViewId : Option String)
  | viewReEntered (viewId : String)
deriving DecidableEq

/-- Outcome of one internal navigation call: the navigation state at
exit, the events emitted, and the value of the returned promise
(`Except.error` models a rejection). -/
structure NavOutcome where
  state : NavigationState
  emitted : List NavEvent
  result : Except String Unit
deriving DecidableEq

/-- `NavigationManager.performPageNavigationInternal`.  `pages` holds
the registered page ids; `animThrows` tells whether the awaited
animation protocol (`performPageTransition`, which touches only DOM
elements) rejects.  The `finally` clause clears `isTransitioning` on
both the success and the throwing path; the not-found throw happens
before the flag is ever set. -/
def performPageNavigationInternal (pages : List String) (animThrows : Bool)
    (s : NavigationState) (pageId : String) : NavOutcome :=
  if pageId ∉ pages then
    ⟨s, [], .error "Page not found"⟩
  else if s.currentPageId = some pageId then
    ⟨s, [], .ok ()⟩
  else
    if animThrows then
      ⟨{ s with isTransitioning := false }, [], .error "animation protocol threw"⟩
    else
      ⟨⟨some pageId, none, false⟩, [.pageChanged pageId s.currentPageId], .ok ()⟩

/-- `NavigationManager.performViewNavigationInternal`, as above; on the
already-current view it emits a re-entry event and returns without
touching the state; on success it never touches `currentPageId`. -/
def performViewNavigationInternal (views : List String) (animThrows : Bool)
    (s : NavigationState) (viewId : String) : NavOutcome :=
  if viewId ∉ views then
    ⟨s, [], .error "View not found"⟩
  else if s.currentViewId = some viewId then
    ⟨s, [.viewReEntered viewId], .ok ()⟩
  else
    if animThrows then
      ⟨{ s with isTransitioning := false }, [], .error "animation protocol threw"⟩
    else
      ⟨{ s with currentViewId := some viewId, isTransitioning := false },
        [.viewChanged viewId s.currentViewId], .ok ()⟩

/-- `NavigationManager.navigateToView`: both branches of the
`isTransitioning` check run the identical `enqueue` call, and the
promise returned to the caller fulfills as soon as the request is
enqueued — before the queue dispatches it and before any animation
runs.  The returned `Except` is the value the awaiting caller sees. -/
def navigateToView (eventQueue : List ApplicationEventQueueItem)
    (viewId priority : String) (now : Int) (guid : String) :
    List ApplicationEventQueueItem × Except String Unit :=
  (EventOrchestrator.enqueue eventQueue "navigate-to-view" "navigation-manager"
      priority (some viewId) none none now guid,
    .ok ())

end NavigationManager

namespace ScreensaverManager

/-- The slice of `ScreensaverConfig` that `handleScreensaverExit`
reads. -/
structure ExitConfig where
  exitBehavior : String
  startingViewId : Option String
deriving DecidableEq

/-- The activation bookkeeping of the manager: its own field, the
mirrored shared-store key, and the remembered last active view. -/
structure ManagerState where
  isActive : Bool
  storeIsActive : Bool
  lastActiveViewId : Option String
deriving DecidableEq

/-- Outcome of one deactivation-handler call: manager state at exit,
the orchestrator queue, the events the manager emitted, and whether its
catch block logged an error. -/
structure ExitOutcome where
  state : ManagerState
  eventQueue : List ApplicationEventQueueItem
  emitted : List String
  errorLogged : Bool
deriving DecidableEq

/-- `ScreensaverManager.handleScreensaverExit` (timer bookkeeping and
the optional deactivate callback elided): clear both Active flags, pick
the target view per `exitBehavior`, await `navigateToView`, and on a
rejected promise roll both flags back and log.  The rollback branch is
kept exactly as in the source even though `navigateToView` always
fulfills. -/
def handleScreensaverExit (cfg : ExitConfig) (s : ManagerState)
    (eventQueue : List ApplicationEventQueueItem) (now : Int) (guid : String) :
    ExitOutcome :=
  if !s.isActive then ⟨s, eventQueue, [], false⟩
  else
    let s := { s with isActive := false, storeIsActive := false }
    let targetViewId : Option String :=
      if cfg.exitBehavior = "return" && s.lastActiveViewId.isSome then
        s.lastActiveViewId
      else if cfg.exitBehavior = "reset" && cfg.startingViewId.isSome then
        cfg.startingViewId
      else none
    match targetViewId with
    | none => ⟨s, eventQueue, ["warn: no target view"], false⟩
    | some tv =>
      match NavigationManager.navigateToView eventQueue tv "immediate" now guid with
      | (q, .ok _) => ⟨s, q, ["screensaver-deactivated"], false⟩
      | (q, .error _) =>
        ⟨{ s with isActive := true, storeIsActive := true }, q, [], true⟩

end ScreensaverManager

namespace SettingsManager

/-- `TouchSequenceState` of settingsManager.ts. -/
structure TouchSequenceState where
  step : Nat
  lastTouchTime : Int
deriving DecidableEq

/-- The touch-recognition fields of the manager: the sequence state and
the duplicate-event debounce timestamp. -/
structure TouchRecognizerState where
  touchSequenceState : TouchSequenceState
  lastEventTime : Int
deriving DecidableEq

/-- `EVENT_DEBOUNCE_MS` of settingsManager.ts. -/
def EVENT_DEBOUNCE_MS : Int := 50

/-- The slice of `SettingsConfig` that the touch recognizer reads
(after registration defaults: radius 100, timeout 3000 unless
configured). -/
structure GestureConfig where
  cornerTouchRadius : Int
  touchTimeout : Int
deriving DecidableEq

/-- The three corner zones recognized by `detectCornerTouch`. -/
inductive Corner where
  | topLeft
  | topRight
  | bottomRight
deriving DecidableEq

/-- `SettingsManager.resetTouchSequence`: clears the step, the last
touch time and the debounce timestamp. -/
def resetTouchSequence (_s : TouchRecognizerState) : TouchRecognizerState :=
  ⟨⟨0, 0⟩, 0⟩

/-- `SettingsManager.detectCornerTouch` over a viewport of the given
width and height. -/
def detectCornerTouch (cfg : GestureConfig) (width height x y : Int) :
    Option Corner :=
  let radius := cfg.cornerTouchRadius
  if x < radius ∧ y < radius then some .topLeft
  else if x > width - radius ∧ y < radius then some .topRight
  else if x > width - radius ∧ y > height - radius then some .bottomRight
  else none

/-- `SettingsManager.getExpectedCorner`. -/
def getExpectedCorner (step : Nat) : Corner :=
  match step with
  | 0 => .topLeft
  | 1 => .topRight
  | 2 => .bottomRight
  | _ => .topLeft

/-- `SettingsManager.handleTouchAttempt` for a qualifying pointer event
at `(x, y)` at time `now`.  The returned Bool tells whether
`activateSettings` was invoked by this event (the sequence completed). -/
def handleTouchAttempt (cfg : GestureConfig) (width height : Int)
    (s : TouchRecognizerState) (now x y : Int) :
    TouchRecognizerState × Bool :=
  if now - s.lastEventTime < EVENT_DEBOUNCE_MS then (s, false)
  else
    let s := { s with lastEventTime := now }
    let timeSinceLastTouch := now - s.touchSequenceState.lastTouchTime
    let s :=
      if s.touchSequenceState.step > 0 ∧ timeSinceLastTouch > cfg.touchTimeout then
        resetTouchSequence s
      else s
    match detectCornerTouch cfg width height x y with
    | none =>
      if s.touchSequenceState.step > 0 then (resetTouchSequence s, false)
      else (s, false)
    | some cornerDetected =>
      if cornerDetected = getExpectedCorner s.touchSequenceState.step then
        let s := { s with
          touchSequenceState := ⟨s.touchSequenceState.step + 1, now⟩ }
        if s.touchSequenceState.step = 3 then (resetTouchSequence s, true)
        else (s, false)
      else (resetTouchSequence s, false)

/-- `SettingsManager.handleSettingsExit`, structurally identical to the
screensaver exit handler: clear the Active flags, pick the target view,
await `navigateToView`, and roll back plus log on a rejected promise
(the rollback branch is kept exactly as in the source even though
`navigateToView` always fulfills). -/
def handleSettingsExit (cfg : ScreensaverManager.ExitConfig)
    (s : ScreensaverManager.ManagerState)
    (eventQueue : List ApplicationEventQueueItem) (now : Int) (guid : String) :
    ScreensaverManager.ExitOutcome :=
  if !s.isActive then ⟨s, eventQueue, [], false⟩
  else
    let s := { s with isActive := false, storeIsActive := false }
    let targetViewId : Option String :=
      if cfg.exitBehavior = "return" && s.lastActiveViewId.isSome then
        s.lastActiveViewId
      else if cfg.exitBehavior = "reset" && cfg.startingViewId.isSome then
        cfg.startingViewId
      else none
    match targetViewId with
    | none => ⟨s, eventQueue, ["warn: no target view"], false⟩
    | some tv =>
      match NavigationManager.navigateToView eventQueue tv "immediate" now guid with
      | (q, .ok _) => ⟨s, q, ["settings-deactivated"], false⟩
      | (q, .error _) =>
        ⟨{ s with isActive := true, storeIsActive := true }, q, [], true⟩

end SettingsManager

/-! ## Concrete fixtures used for evaluations at explicit inputs -/

/-- A default-priority item enqueued first (scheduleFor 5). -/
def itemDefault5 : ApplicationEventQueueItem :=
  ⟨"g1", "busA", "e1", "default", 5, none, none⟩

/-- An immediate-priority item enqueued second (scheduleFor 9). -/
def itemImmediate9 : ApplicationEventQueueItem :=
  ⟨"g2", "busA", "e2", "immediate", 9, none, none⟩

/-- A scheduled item that becomes eligible at time 100. -/
def itemScheduled100 : ApplicationEventQueueItem :=
  ⟨"g3", "busA", "e3", "scheduled", 100, none, none⟩

/-- Two further default items on one bus, used for the tick model. -/
def itemTickA : ApplicationEventQueueItem :=
  ⟨"t1", "busA", "evtA", "default", 0, none, none⟩

/-- Second tick-model item; same class and bus as `itemTickA`. -/
def itemTickB : ApplicationEventQueueItem :=
  ⟨"t2", "busA", "evtB", "default", 0, none, none⟩

/-- The loop state at the start of an animation frame: two eligible
default items queued, their bus registered, and the single callback
that `run()` registered pending. -/
def tickStart : EventOrchestrator.LoopState :=
  ⟨[itemTickA, itemTickB], ["busA"], 1, false, []⟩

/-! ## Helper lemmas on the queue comparator and the stable sort -/

namespace EventOrchestrator

theorem cmpLe_refl (a : ApplicationEventQueueItem) : cmpLe a a = true := by
  simp [cmpLe]

theorem cmpLe_eq_true_iff (a b : ApplicationEventQueueItem) :
    cmpLe a b = true ↔
      (priorityOrder a.priority < priorityOrder b.priority ∨
        (priorityOrder a.priority = priorityOrder b.priority ∧
          a.scheduleFor ≤ b.scheduleFor)) := by
  simp only [cmpLe]
  split_ifs with h <;> simp only [decide_eq_true_eq] <;> omega

theorem cmpLe_eq_false_iff (a b : ApplicationEventQueueItem) :
    cmpLe a b = false ↔
      (priorityOrder b.priority < priorityOrder a.priority ∨
        (priorityOrder a.priority = priorityOrder b.priority ∧
          b.scheduleFor < a.scheduleFor)) := by
  rw [Bool.eq_false_iff, Ne, cmpLe_eq_true_iff]
  omega

theorem cmpLe_trans :
    ∀ a b c : ApplicationEventQueueItem, cmpLe a b → cmpLe b c → cmpLe a c := by
  intro a b c hab hbc
  rw [cmpLe_eq_true_iff] at *
  omega

theorem cmpLe_total :
    ∀ a b : ApplicationEventQueueItem, cmpLe a b || cmpLe b a := by
  intro a b
  rw [Bool.or_eq_true, cmpLe_eq_true_iff, cmpLe_eq_true_iff]
  omega

end EventOrchestrator

/-- The first element of a stable sort is preceded, in the input list,
only by elements that compare strictly after it. -/
theorem mergeSort_head_decomp {α : Type} {le : α → α → Bool}
    (htrans : ∀ (a b c : α), le a b → le b c → le a c)
    (htotal : ∀ (a b : α), le a b || le b a) :
    ∀ (l : List α) (e : α) (rest : List α),
      l.mergeSort le = e :: rest →
      ∃ pre post, l = pre ++ e :: post ∧ ∀ x ∈ pre, le x e = false := by
  intro l
  induction l with
  | nil => intro e rest h; simp at h
  | cons a l ih =>
    intro e rest h
    obtain ⟨l₁, l₂, h1, h2, h3⟩ := List.mergeSort_cons htrans htotal a l
    rw [h] at h1
    cases l₁ with
    | nil =>
      simp only [List.nil_append, List.cons.injEq] at h1
      exact ⟨[], l, by simp [h1.1], by simp⟩
    | cons b l₁ =>
      simp only [List.cons_append, List.cons.injEq] at h1
      obtain ⟨hbe, -⟩ := h1
      subst hbe
      obtain ⟨pre, post, hl, hpre⟩ := ih e (l₁ ++ l₂) h2
      refine ⟨a :: pre, post, by rw [hl, List.cons_append], ?_⟩
      intro x hx
      rcases List.mem_cons.mp hx with hxa | hxp
      · subst hxa
        have := h3 e (List.mem_cons_self e l₁)
        simpa using this
      · exact hpre x hxp

/-- Conversely, an element below every list member, and preceded only by
elements that compare strictly after it, is the head of the stable
sort. -/
theorem head_mergeSort_of_min {α : Type} {le : α → α → Bool}
    (htrans : ∀ (a b c : α), le a b → le b c → le a c)
    (htotal : ∀ (a b : α), le a b || le b a) :
    ∀ (pre : List α) (e : α) (post : List α),
      (∀ x ∈ pre, le x e = false) →
      (∀ x ∈ pre ++ e :: post, le e x = true) →
      ((pre ++ e :: post).mergeSort le).head? = some e := by
  intro pre
  induction pre with
  | nil =>
    intro e post hpre hmin
    obtain ⟨l₁, l₂, h1, h2, h3⟩ := List.mergeSort_cons htrans htotal e post
    have hl₁ : l₁ = [] := by
      by_contra hne
      obtain ⟨b, hb⟩ := List.exists_mem_of_ne_nil l₁ hne
      have hbpost : b ∈ post := by
        have hb2 : b ∈ l₁ ++ l₂ := List.mem_append_left _ hb
        rw [← h2] at hb2
        exact List.mem_mergeSort.mp hb2
      have hminb := hmin b (by simp [hbpost])
      have hnb := h3 b hb
      simp [hminb] at hnb
    subst hl₁
    simp only [List.nil_append] at h1 h2 ⊢
    rw [h1]
    rfl
  | cons a pre ih =>
    intro e post hpre hmin
    obtain ⟨l₁, l₂, h1, h2, h3⟩ :=
      List.mergeSort_cons htrans htotal a (pre ++ e :: post)
    have hhead : (l₁ ++ l₂).head? = some e := by
      rw [← h2]
      exact ih e post (fun x hx => hpre x (List.mem_cons_of_mem a hx))
        (fun x hx => hmin x (List.mem_cons_of_mem a hx))
    rw [List.cons_append]
    cases l₁ with
    | nil =>
      exfalso
      simp only [List.nil_append] at h1 h2 hhead
      have hs := List.sorted_mergeSort htrans htotal (a :: (pre ++ e :: post))
      rw [h1] at hs
      cases l₂ with
      | nil => simp at hhead
      | cons c l₂ =>
        simp only [List.head?_cons, Option.some.injEq] at hhead
        have hae : le a e = true := by
          have hac := (List.pairwise_cons.mp hs).1 c (List.mem_cons_self c l₂)
          rwa [hhead] at hac
        have hfa : le a e = false := hpre a (List.mem_cons_self a pre)
        rw [hae] at hfa
        simp at hfa
    | cons b l₁ =>
      simp only [List.cons_append, List.head?_cons, Option.some.injEq] at hhead
      rw [h1, List.cons_append, List.head?_cons, hhead]

namespace EventOrchestrator

/-- An empty selection happens exactly when no queued item is available;
the queue is then left untouched. -/
theorem getPrioritised_none_spec (currentTime : Int)
    (q : List ApplicationEventQueueItem)
    (h : (getPrioritisedEventFromQueue currentTime q).1 = none) :
    q.filter (fun x => isAvailable currentTime x) = [] ∧
    (getPrioritisedEventFromQueue currentTime q).2 = q := by
  simp only [getPrioritisedEventFromQueue] at h ⊢
  cases hh : ((q.filter (fun event => isAvailable currentTime event)).mergeSort cmpLe).head? with
  | none =>
    refine ⟨?_, rfl⟩
    have hnil : (q.filter (fun event => isAvailable currentTime event)).mergeSort cmpLe = [] := by
      cases hc : (q.filter (fun event => isAvailable currentTime event)).mergeSort cmpLe with
      | nil => rfl
      | cons a l => rw [hc] at hh; simp at hh
    have hperm := List.mergeSort_perm (q.filter (fun event => isAvailable currentTime event)) cmpLe
    rw [hnil] at hperm
    exact (hperm.symm.eq_nil)
  | some nextEvent =>
    rw [hh] at h
    simp at h

/-- Full characterization of a successful selection: the selected item
is available, comes from the queue, is minimal under the comparator
among all available items, is the first occurrence among available
items that attains that minimum (stability), and is the one occurrence
removed from the queue. -/
theorem getPrioritised_some_spec (currentTime : Int)
    (q : List ApplicationEventQueueItem) (e : ApplicationEventQueueItem)
    (h : (getPrioritisedEventFromQueue currentTime q).1 = some e) :
    isAvailable currentTime e = true ∧ e ∈ q ∧
    (∀ x ∈ q, isAvailable currentTime x = true → cmpLe e x = true) ∧
    (∃ pre post,
        q.filter (fun x => isAvailable currentTime x) = pre ++ e :: post ∧
        ∀ x ∈ pre, cmpLe x e = false) ∧
    (getPrioritisedEventFromQueue currentTime q).2 = q.erase e := by
  have hh : ((q.filter (fun event => isAvailable currentTime event)).mergeSort cmpLe).head? =
      some e := by
    simp only [getPrioritisedEventFromQueue] at h
    cases hh2 : ((q.filter (fun event => isAvailable currentTime event)).mergeSort cmpLe).head? with
    | none => rw [hh2] at h; simp at h
    | some nextEvent =>
      rw [hh2] at h
      simp only [Option.some.injEq] at h ⊢
      simpa using h
  obtain ⟨tail, htail⟩ :
      ∃ tail, (q.filter (fun event => isAvailable currentTime event)).mergeSort cmpLe =
        e :: tail := by
    cases hc : (q.filter (fun event => isAvailable currentTime event)).mergeSort cmpLe with
    | nil => rw [hc] at hh; simp at hh
    | cons a l =>
      rw [hc] at hh
      simp only [List.head?_cons, Option.some.injEq] at hh
      exact ⟨l, by rw [hh]⟩
  have hmemf : e ∈ q.filter (fun event => isAvailable currentTime event) := by
    have hm : e ∈ (q.filter (fun event => isAvailable currentTime event)).mergeSort cmpLe := by
      rw [htail]; exact List.mem_cons_self e tail
    exact List.mem_mergeSort.mp hm
  obtain ⟨hmem, hav⟩ := List.mem_filter.mp hmemf
  refine ⟨hav, hmem, ?_, ?_, ?_⟩
  · intro x hx hxav
    have hxf : x ∈ q.filter (fun event => isAvailable currentTime event) :=
      List.mem_filter.mpr ⟨hx, hxav⟩
    have hxm : x ∈ (q.filter (fun event => isAvailable currentTime event)).mergeSort cmpLe :=
      List.mem_mergeSort.mpr hxf
    rw [htail] at hxm
    rcases List.mem_cons.mp hxm with rfl | hxt
    · exact cmpLe_refl x
    · have hs := List.sorted_mergeSort cmpLe_trans cmpLe_total
        (q.filter (fun event => isAvailable currentTime event))
      rw [htail] at hs
      exact (List.pairwise_cons.mp hs).1 x hxt
  · exact mergeSort_head_decomp cmpLe_trans cmpLe_total _ e tail htail
  · simp only [getPrioritisedEventFromQueue]
    rw [hh]

/-- Completeness of selection: an available item that every available
item compares after, and that is preceded only by strictly-later
available items, is the one selected. -/
theorem getPrioritised_complete (currentTime : Int)
    (pre post : List ApplicationEventQueueItem) (e : ApplicationEventQueueItem)
    (he : isAvailable currentTime e = true)
    (hpre : ∀ x ∈ pre, isAvailable currentTime x = true → cmpLe x e = false)
    (hmin : ∀ x ∈ pre ++ e :: post, isAvailable currentTime x = true → cmpLe e x = true) :
    (getPrioritisedEventFromQueue currentTime (pre ++ e :: post)).1 = some e := by
  have hfilter : (pre ++ e :: post).filter (fun event => isAvailable currentTime event) =
      pre.filter (fun event => isAvailable currentTime event) ++
        e :: post.filter (fun event => isAvailable currentTime event) := by
    rw [List.filter_append, List.filter_cons_of_pos he]
  have hhead := head_mergeSort_of_min cmpLe_trans cmpLe_total
      (pre.filter (fun event => isAvailable currentTime event)) e
      (post.filter (fun event => isAvailable currentTime event))
      (fun x hx => hpre x (List.mem_filter.mp hx).1 (List.mem_filter.mp hx).2)
      (by
        intro x hx
        rcases List.mem_append.mp hx with hxp | hxc
        · obtain ⟨hxm, hxav⟩ := List.mem_filter.mp hxp
          exact hmin x (List.mem_append_left _ hxm) hxav
        · rcases List.mem_cons.mp hxc with rfl | hxt
          · exact cmpLe_refl x
          · obtain ⟨hxm, hxav⟩ := List.mem_filter.mp hxt
            exact hmin x (List.mem_append_right _ (List.mem_cons_of_mem e hxm)) hxav)
  simp only [getPrioritisedEventFromQueue, hfilter, hhead]

end EventOrchestrator

/-! ## Claim theorems -/

open EventOrchestrator

/-- C1: whenever the dispatcher selects an item from the queue, that
item is eligible, belongs to a priority class at least as high (in the
fixed order scheduled, immediate, animation, default encoded by
`priorityOrder`) as every eligible queued item, precedes every eligible
item of the same class with a later eligibleAt, and — among eligible
items of equal class and equal eligibleAt — is the first in enqueue
order (stable selection); when the selection is empty, no eligible item
existed. -/
theorem claim_C1_priority_and_stability (currentTime : Int)
    (q : List ApplicationEventQueueItem) :
    ((getPrioritisedEventFromQueue currentTime q).1 = none →
        q.filter (fun x => isAvailable currentTime x) = []) ∧
    ∀ e, (getPrioritisedEventFromQueue currentTime q).1 = some e →
      isAvailable currentTime e = true ∧ e ∈ q ∧
      (∀ x ∈ q, isAvailable currentTime x = true →
          priorityOrder e.priority < priorityOrder x.priority ∨
            (priorityOrder e.priority = priorityOrder x.priority ∧
              e.scheduleFor ≤ x.scheduleFor)) ∧
      ∃ pre post,
        q.filter (fun x => isAvailable currentTime x) = pre ++ e :: post ∧
        ∀ x ∈ pre,
          priorityOrder e.priority < priorityOrder x.priority ∨
            (priorityOrder e.priority = priorityOrder x.priority ∧
              e.scheduleFor < x.scheduleFor) := by
  constructor
  · intro h
    exact (getPrioritised_none_spec currentTime q h).1
  · intro e h
    obtain ⟨hav, hmem, hmin, ⟨pre, post, hdec, hpre⟩, -⟩ :=
      getPrioritised_some_spec currentTime q e h
    refine ⟨hav, hmem, ?_, pre, post, hdec, ?_⟩
    · intro x hx hxav
      have hc := hmin x hx hxav
      rw [cmpLe_eq_true_iff] at hc
      exact hc
    · intro x hx
      have hc := hpre x hx
      rw [cmpLe_eq_false_iff] at hc
      rcases hc with hlt | ⟨heq, hsf⟩
      · exact Or.inl hlt
      · exact Or.inr ⟨heq.symm, hsf⟩

/-- Witness for C1 at a concrete queue: the immediate item enqueued
after a default item is selected, and the theorem reports it as a queue
member. -/
theorem claim_C1_witness :
    (getPrioritisedEventFromQueue 0 [itemDefault5, itemImmediate9]).1 =
      some itemImmediate9 ∧
    itemImmediate9 ∈ [itemDefault5, itemImmediate9] := by
  have hsel : (getPrioritisedEventFromQueue 0 [itemDefault5, itemImmediate9]).1 =
      some itemImmediate9 :=
    getPrioritised_complete 0 [itemDefault5] [] itemImmediate9
      (by decide) (by decide) (by decide)
  exact ⟨hsel,
    (((claim_C1_priority_and_stability 0 [itemDefault5, itemImmediate9]).2
        itemImmediate9 hsel).2.1)⟩

/-- C5: a scheduled item is never selected while the current time is
strictly before its eligibleAt; while ineligible it is never the
selection and stays in the queue; and at any dispatch instant at or
after its eligibleAt at which no other item would be selected ahead of
it, it is the item selected. -/
theorem claim_C5_scheduled_timing :
    (∀ (currentTime : Int) (q : List ApplicationEventQueueItem)
        (e : ApplicationEventQueueItem),
        (getPrioritisedEventFromQueue currentTime q).1 = some e →
        e.priority = "scheduled" → e.scheduleFor ≤ currentTime) ∧
    (∀ (currentTime : Int) (q : List ApplicationEventQueueItem)
        (x : ApplicationEventQueueItem),
        x ∈ q → isAvailable currentTime x = false →
        (getPrioritisedEventFromQueue currentTime q).1 ≠ some x ∧
        x ∈ (getPrioritisedEventFromQueue currentTime q).2) ∧
    (∀ (currentTime : Int) (pre post : List ApplicationEventQueueItem)
        (e : ApplicationEventQueueItem),
        e.priority = "scheduled" → e.scheduleFor ≤ currentTime →
        (∀ x ∈ pre, isAvailable currentTime x = true →
            priorityOrder e.priority < priorityOrder x.priority ∨
              (priorityOrder e.priority = priorityOrder x.priority ∧
                e.scheduleFor < x.scheduleFor)) →
        (∀ x ∈ post, isAvailable currentTime x = true →
            priorityOrder e.priority < priorityOrder x.priority ∨
              (priorityOrder e.priority = priorityOrder x.priority ∧
                e.scheduleFor ≤ x.scheduleFor)) →
        (getPrioritisedEventFromQueue currentTime (pre ++ e :: post)).1 = some e) := by
  refine ⟨?_, ?_, ?_⟩
  · intro currentTime q e h hsched
    have hav := (getPrioritised_some_spec currentTime q e h).1
    rw [isAvailable, if_pos hsched] at hav
    exact of_decide_eq_true hav
  · intro currentTime q x hx hxav
    cases hres : (getPrioritisedEventFromQueue currentTime q).1 with
    | none =>
      refine ⟨by simp, ?_⟩
      rw [(getPrioritised_none_spec currentTime q hres).2]
      exact hx
    | some e =>
      obtain ⟨hav, -, -, -, h2⟩ := getPrioritised_some_spec currentTime q e hres
      have hne : x ≠ e := by
        intro hxe
        rw [hxe, hav] at hxav
        simp at hxav
      refine ⟨?_, ?_⟩
      · intro hc
        simp only [Option.some.injEq] at hc
        exact hne hc.symm
      · rw [h2]
        exact (List.mem_erase_of_ne hne).mpr hx
  · intro currentTime pre post e hsched hdue hpre hpost
    have he : isAvailable currentTime e = true := by
      rw [isAvailable, if_pos hsched]
      exact decide_eq_true hdue
    refine getPrioritised_complete currentTime pre post e he ?_ ?_
    · intro x hx hxav
      rw [cmpLe_eq_false_iff]
      rcases hpre x hx hxav with hlt | ⟨heq, hsf⟩
      · exact Or.inl hlt
      · exact Or.inr ⟨heq.symm, hsf⟩
    · intro x hx hxav
      rw [cmpLe_eq_true_iff]
      rcases List.mem_append.mp hx with hxp | hxc
      · rcases hpre x hxp hxav with hlt | ⟨heq, hsf⟩
        · exact Or.inl hlt
        · exact Or.inr ⟨heq, le_of_lt hsf⟩
      · rcases List.mem_cons.mp hxc with rfl | hxt
        · exact Or.inr ⟨rfl, le_refl _⟩
        · exact hpost x hxt hxav

/-- Witness for C5: the scheduled item with eligibleAt 100 is selected
at time 150 standing alone in the queue, and its eligibleAt is indeed
at or before the selection time. -/
theorem claim_C5_witness :
    (getPrioritisedEventFromQueue 150 [itemScheduled100]).1 =
      some itemScheduled100 ∧
    itemScheduled100.scheduleFor ≤ 150 := by
  have hsel : (getPrioritisedEventFromQueue 150 [itemScheduled100]).1 =
      some itemScheduled100 :=
    getPrioritised_complete 150 [] [] itemScheduled100
      (by decide) (by decide) (by decide)
  exact ⟨hsel,
    claim_C5_scheduled_timing.1 150 [itemScheduled100] itemScheduled100
      hsel (by decide)⟩

/-- C3: an enqueue whose (channelName, eventName) is one of the two
reserved navigation request pairs first removes every queued item with
the identical pair and then appends the new item, so exactly one item
with that pair (the new, latest one) is queued afterwards; an enqueue
for any other pair removes nothing and only appends. -/
theorem claim_C3_navigation_coalescing
    (q : List ApplicationEventQueueItem)
    (event forBus priority : String) (params : Option String)
    (scheduleFor expiry : Option Int) (now : Int) (guid : String) :
    (reservedNavigationPair event forBus = true →
        enqueue q event forBus priority params scheduleFor expiry now guid =
          q.filter (fun item => !(item.eventBusId = forBus && item.eventId = event)) ++
            [⟨guid, forBus, event, priority, scheduleFor.getD now, expiry, params⟩] ∧
        ((enqueue q event forBus priority params scheduleFor expiry now guid).filter
            (fun item => item.eventBusId = forBus && item.eventId = event)).length = 1) ∧
    (reservedNavigationPair event forBus = false →
        enqueue q event forBus priority params scheduleFor expiry now guid =
          q ++ [⟨guid, forBus, event, priority, scheduleFor.getD now, expiry, params⟩]) := by
  constructor
  · intro hres
    have henq : enqueue q event forBus priority params scheduleFor expiry now guid =
        q.filter (fun item => !(item.eventBusId = forBus && item.eventId = event)) ++
          [⟨guid, forBus, event, priority, scheduleFor.getD now, expiry, params⟩] := by
      simp [enqueue, hres, removeQueuedNavigationEvents]
    refine ⟨henq, ?_⟩
    rw [henq, List.filter_append, List.filter_filter]
    simp
  · intro hres
    simp [enqueue, hres]

/-- Witness for C3: enqueuing a view-transition request twice in quick
succession leaves exactly one item with the reserved pair queued, and
the resulting queue holds only the latest request. -/
theorem claim_C3_witness :
    ((enqueue
        (enqueue [] "navigate-to-view" "navigation-manager" "immediate"
          (some "v1") none none 0 "g1")
        "navigate-to-view" "navigation-manager" "immediate"
        (some "v2") none none 1 "g2").filter
      (fun item => item.eventBusId = "navigation-manager" &&
        item.eventId = "navigate-to-view")).length = 1 ∧
    enqueue
        (enqueue [] "navigate-to-view" "navigation-manager" "immediate"
          (some "v1") none none 0 "g1")
        "navigate-to-view" "navigation-manager" "immediate"
        (some "v2") none none 1 "g2" =
      [⟨"g2", "navigation-manager", "navigate-to-view", "immediate", 1, none,
        some "v2"⟩] :=
  ⟨((claim_C3_navigation_coalescing
      (enqueue [] "navigate-to-view" "navigation-manager" "immediate"
        (some "v1") none none 0 "g1")
      "navigate-to-view" "navigation-manager" "immediate"
      (some "v2") none none 1 "g2").1 (by decide)).2,
    by decide⟩

/-- C7 counterexample: a bus whose only handler for a name was added and
then cancelled has zero handlers currently registered, yet a publish is
NOT reported as a contract violation — the cancelled record is still
counted by `validateEventDispatch` — and the dispatch proceeds,
reaching zero handlers.  The claim as stated (every publish with zero
current handlers is reported and not dispatched) is therefore false at
this input. -/
theorem claim_C7_counterexample :
    EventBus.remove (EventBus.onEvent [] "evt") "evt" =
      Except.ok [⟨"evt", false⟩] ∧
    (EventBus.emit [⟨"evt", false⟩] "evt").violationReported = false ∧
    (EventBus.emit [⟨"evt", false⟩] "evt").dispatched = true ∧
    (EventBus.emit [⟨"evt", false⟩] "evt").handlersInvoked = 0 := by
  decide

/-- C7 as amended: the non-fatal contract violation is reported exactly
when no listener record for the name exists at all — in particular when
no handler was ever added — and then nothing is dispatched, no handler
runs, and the call returns normally (the loop is not crashed; the error
is caught and logged inside `emit`).  When records exist but every one
of them was cancelled, no violation is reported and the dispatch
invokes zero handlers. -/
theorem claim_C7_unlistened_publish
    (activeListeners : List EventBus.EventListenerRecord) (type : String) :
    ((activeListeners.filter (fun l => l.eventName = type)).length = 0 →
        EventBus.emit activeListeners type = ⟨true, false, 0⟩) ∧
    ((∀ l ∈ activeListeners, l.eventName = type → l.live = false) →
        (EventBus.emit activeListeners type).handlersInvoked = 0) := by
  constructor
  · intro h
    simp only [EventBus.emit, if_pos h]
  · intro h
    by_cases hlen : (activeListeners.filter (fun l => l.eventName = type)).length = 0
    · simp only [EventBus.emit, if_pos hlen]
    · simp only [EventBus.emit, if_neg hlen]
      have hnil : activeListeners.filter (fun l => l.eventName == type && l.live) = [] := by
        rw [List.filter_eq_nil_iff]
        intro l hl
        by_cases hname : l.eventName = type
        · have hdead := h l hl hname
          simp [hname, hdead]
        · simp [hname]
      rw [hnil]
      rfl

/-- Witness for C7: publishing a name for which no handler was ever
registered is reported, not dispatched, and reaches zero handlers. -/
theorem claim_C7_witness :
    EventBus.emit [] "evt" = ⟨true, false, 0⟩ :=
  (claim_C7_unlistened_publish [] "evt").1 (by decide)

/-- C8 counterexample: dispatching the only queued item leaves the
queue empty; rescheduling the dispatched identifier then throws a
TypeError (the `filter(...)[0]` lookup yields undefined) instead of
being a no-op, so the claim that reschedule of an already-dispatched
item is a no-op is false at this input — and a never-enqueued id fails
the same way, not with a distinct NotFound. -/
theorem claim_C8_counterexample :
    (getPrioritisedEventFromQueue 150 [itemScheduled100]).2 = [] ∧
    rescheduleQueuedEvent [] "g3" 500 ≠
      Except.ok ((getPrioritisedEventFromQueue 150 [itemScheduled100]).2) ∧
    rescheduleQueuedEvent [] "g3" 500 =
      Except.error "TypeError: cannot set property scheduleFor of undefined" := by
  have hsel : (getPrioritisedEventFromQueue 150 [itemScheduled100]).1 =
      some itemScheduled100 :=
    getPrioritised_complete 150 [] [] itemScheduled100
      (by decide) (by decide) (by decide)
  have h2 := (getPrioritised_some_spec 150 [itemScheduled100] itemScheduled100 hsel).2.2.2.2
  have hqueue : (getPrioritisedEventFromQueue 150 [itemScheduled100]).2 = [] := by
    rw [h2]; decide
  refine ⟨hqueue, ?_, rfl⟩
  rw [hqueue]
  decide

/-- In-place update of the first identifier match, shaped for an
explicit decomposition of the queue. -/
theorem setScheduleForOfFirst_append (id : String) (newSchedule : Int) :
    ∀ (pre : List ApplicationEventQueueItem) (e : ApplicationEventQueueItem)
      (post : List ApplicationEventQueueItem),
      (∀ x ∈ pre, x.instanceIdentifier ≠ id) → e.instanceIdentifier = id →
      setScheduleForOfFirst (pre ++ e :: post) id newSchedule =
        pre ++ { e with scheduleFor := newSchedule } :: post := by
  intro pre
  induction pre with
  | nil =>
    intro e post _ hid
    simp [setScheduleForOfFirst, hid]
  | cons a pre ih =>
    intro e post hpre hid
    have hane : a.instanceIdentifier ≠ id := hpre a (List.mem_cons_self a pre)
    simp only [List.cons_append, setScheduleForOfFirst, if_neg hane, List.append_eq]
    rw [ih e post (fun x hx => hpre x (List.mem_cons_of_mem a hx)) hid]

/-- C8 as amended: `rescheduleQueuedEvent` mutates the `scheduleFor`
(eligibleAt) of the first still-pending queue item carrying the
identifier, leaving every other item untouched; when no queued item
carries the identifier — whether it was already dispatched or never
enqueued — the call throws a TypeError rather than being a no-op or a
distinct NotFound failure. -/
theorem claim_C8_reschedule_mutates
    (q : List ApplicationEventQueueItem) (id : String) (newSchedule : Int) :
    ((∃ e ∈ q, e.instanceIdentifier = id) →
        rescheduleQueuedEvent q id newSchedule =
          .ok (setScheduleForOfFirst q id newSchedule)) ∧
    ((∀ e ∈ q, e.instanceIdentifier ≠ id) →
        rescheduleQueuedEvent q id newSchedule =
          .error "TypeError: cannot set property scheduleFor of undefined") ∧
    (∀ pre e post, q = pre ++ e :: post →
        (∀ x ∈ pre, x.instanceIdentifier ≠ id) → e.instanceIdentifier = id →
        setScheduleForOfFirst q id newSchedule =
          pre ++ { e with scheduleFor := newSchedule } :: post) := by
  refine ⟨?_, ?_, ?_⟩
  · intro ⟨e, he, hid⟩
    cases hf : q.filter (fun x => x.instanceIdentifier = id) with
    | nil =>
      exfalso
      have hm : e ∈ q.filter (fun x => x.instanceIdentifier = id) :=
        List.mem_filter.mpr ⟨he, by simp [hid]⟩
      rw [hf] at hm
      simp at hm
    | cons a l =>
      simp only [rescheduleQueuedEvent, hf]
  · intro h
    have hf : q.filter (fun x => x.instanceIdentifier = id) = [] := by
      rw [List.filter_eq_nil_iff]
      intro x hx
      simp [h x hx]
    simp only [rescheduleQueuedEvent, hf]
  · intro pre e post hq hpre hid
    subst hq
    exact setScheduleForOfFirst_append id newSchedule pre e post hpre hid

/-- Witness for C8 as amended: rescheduling the still-pending scheduled
item updates its eligibleAt in place. -/
theorem claim_C8_witness :
    rescheduleQueuedEvent [itemScheduled100] "g3" 500 =
      Except.ok [⟨"g3", "busA", "e3", "scheduled", 500, none, none⟩] := by
  have h := (claim_C8_reschedule_mutates [itemScheduled100] "g3" 500).1
    ⟨itemScheduled100, by decide, by decide⟩
  rw [h]
  decide

/-- Concrete selection equation: with both default items eligible, the
earlier-enqueued one is selected and removed. -/
theorem tickSelectionAB :
    getPrioritisedEventFromQueue 100 [itemTickA, itemTickB] =
      (some itemTickA, [itemTickB]) := by
  have h1 : (getPrioritisedEventFromQueue 100 [itemTickA, itemTickB]).1 =
      some itemTickA :=
    getPrioritised_complete 100 [] [itemTickB] itemTickA
      (by decide) (by decide) (by decide)
  have h2 := (getPrioritised_some_spec 100 [itemTickA, itemTickB] itemTickA h1).2.2.2.2
  have h2b : (getPrioritisedEventFromQueue 100 [itemTickA, itemTickB]).2 =
      [itemTickB] := by
    rw [h2]; decide
  exact Prod.ext_iff.mpr ⟨h1, h2b⟩

/-- Concrete selection equation: the remaining item is selected on the
following frame. -/
theorem tickSelectionB :
    getPrioritisedEventFromQueue 100 [itemTickB] = (some itemTickB, []) := by
  have h1 : (getPrioritisedEventFromQueue 100 [itemTickB]).1 = some itemTickB :=
    getPrioritised_complete 100 [] [] itemTickB (by decide) (by decide) (by decide)
  have h2 := (getPrioritised_some_spec 100 [itemTickB] itemTickB h1).2.2.2.2
  have h2b : (getPrioritisedEventFromQueue 100 [itemTickB]).2 = [] := by
    rw [h2]; decide
  exact Prod.ext_iff.mpr ⟨h1, h2b⟩

/-- C2, settled against the code as a bug: starting a frame with two
eligible default items and the one pending callback registered by
`run()`, the frame dispatches exactly one item (`itemTickA`) and leaves
the other queued — the `requestAnimationFrame` registered on the
still-non-empty branch runs only in the NEXT frame, although the
comment on that branch says to process immediately.  The second item is
dispatched only by the following frame, refuting the exhaustive
same-tick drain the claim (and the comment) describe; the frame also
ends with two callbacks pending because the branch registers an extra
one on top of the unconditional re-registration. -/
theorem claim_C2_one_dispatch_per_tick :
    EventOrchestrator.runFrame 100 tickStart =
      ⟨[itemTickB], ["busA"], 2, false, [itemTickA]⟩ ∧
    EventOrchestrator.runFrame 100 (EventOrchestrator.runFrame 100 tickStart) =
      ⟨[], ["busA"], 2, false, [itemTickA, itemTickB]⟩ := by
  have hframe1 : EventOrchestrator.runFrame 100 tickStart =
      ⟨[itemTickB], ["busA"], 2, false, [itemTickA]⟩ := by
    simp +decide [EventOrchestrator.runFrame, EventOrchestrator.runCallbacks, tickStart,
      EventOrchestrator.processQueueCallback, EventOrchestrator.processNextQueueItem,
      tickSelectionAB]
  refine ⟨hframe1, ?_⟩
  rw [hframe1]
  simp +decide [EventOrchestrator.runFrame, EventOrchestrator.runCallbacks,
    EventOrchestrator.processQueueCallback, EventOrchestrator.processNextQueueItem,
    tickSelectionB]

/-- Evaluation of one touch that passes the debounce filter and is
within the timeout, landing in a corner zone: the outcome depends only
on whether that corner is the expected one and whether it completes the
sequence. -/
theorem handleTouchAttempt_eval (cfg : SettingsManager.GestureConfig)
    (width height : Int) (s : SettingsManager.TouchRecognizerState)
    (now x y : Int) (corner : SettingsManager.Corner)
    (hdb : ¬(now - s.lastEventTime < SettingsManager.EVENT_DEBOUNCE_MS))
    (hto : ¬(s.touchSequenceState.step > 0 ∧
        now - s.touchSequenceState.lastTouchTime > cfg.touchTimeout))
    (hdet : SettingsManager.detectCornerTouch cfg width height x y = some corner) :
    SettingsManager.handleTouchAttempt cfg width height s now x y =
      if corner = SettingsManager.getExpectedCorner s.touchSequenceState.step then
        (if s.touchSequenceState.step + 1 = 3 then (⟨⟨0, 0⟩, 0⟩, true)
         else (⟨⟨s.touchSequenceState.step + 1, now⟩, now⟩, false))
      else (⟨⟨0, 0⟩, 0⟩, false) := by
  simp only [SettingsManager.handleTouchAttempt, if_neg hdb, if_neg hto, hdet,
    SettingsManager.resetTouchSequence]

/-- Evaluation of one touch that passes the debounce filter but arrives
after the configured timeout mid-sequence: the sequence is reset to
step 0 first and the point is then evaluated against the freshly reset
state. -/
theorem handleTouchAttempt_timeout_eval (cfg : SettingsManager.GestureConfig)
    (width height : Int) (s : SettingsManager.TouchRecognizerState)
    (now x y : Int) (corner : SettingsManager.Corner)
    (hdb : ¬(now - s.lastEventTime < SettingsManager.EVENT_DEBOUNCE_MS))
    (hto : s.touchSequenceState.step > 0 ∧
        now - s.touchSequenceState.lastTouchTime > cfg.touchTimeout)
    (hdet : SettingsManager.detectCornerTouch cfg width height x y = some corner) :
    SettingsManager.handleTouchAttempt cfg width height s now x y =
      if corner = SettingsManager.getExpectedCorner 0 then (⟨⟨1, now⟩, 0⟩, false)
      else (⟨⟨0, 0⟩, 0⟩, false) := by
  simp only [SettingsManager.handleTouchAttempt, if_neg hdb, if_pos hto, hdet,
    SettingsManager.resetTouchSequence]
  norm_num

/-- C6: starting at step 0 with a registered gesture configuration
(radius larger than 5 and fitting the viewport), touches at (5,5), then
(width-5,5), then (width-5,height-5), each consecutive pair separated
by more than the 50ms debounce window and by at most the configured
timeout, advance the step through 1 and 2, trigger activation exactly
once (only the third touch activates) and return the step to 0;
touching the bottom-right corner while step 1 expects top-right resets
to step 0 without activating; and a gap exceeding the configured
timeout resets the sequence before the new point is evaluated, so a
touch that would have matched step 1 instead lands on step 0, mismatches
and leaves the step at 0 without activating. -/
theorem claim_C6_corner_sequence
    (cfg : SettingsManager.GestureConfig) (width height t1 t2 t3 : Int)
    (hr : 5 < cfg.cornerTouchRadius)
    (hw : cfg.cornerTouchRadius + 5 ≤ width)
    (hhv : cfg.cornerTouchRadius + 5 ≤ height)
    (hd1 : SettingsManager.EVENT_DEBOUNCE_MS ≤ t1)
    (hd2 : SettingsManager.EVENT_DEBOUNCE_MS < t2 - t1)
    (hd3 : SettingsManager.EVENT_DEBOUNCE_MS < t3 - t2)
    (ht2 : t2 - t1 ≤ cfg.touchTimeout)
    (ht3 : t3 - t2 ≤ cfg.touchTimeout) :
    SettingsManager.handleTouchAttempt cfg width height ⟨⟨0, 0⟩, 0⟩ t1 5 5 =
      (⟨⟨1, t1⟩, t1⟩, false) ∧
    SettingsManager.handleTouchAttempt cfg width height ⟨⟨1, t1⟩, t1⟩ t2
        (width - 5) 5 =
      (⟨⟨2, t2⟩, t2⟩, false) ∧
    SettingsManager.handleTouchAttempt cfg width height ⟨⟨2, t2⟩, t2⟩ t3
        (width - 5) (height - 5) =
      (⟨⟨0, 0⟩, 0⟩, true) ∧
    SettingsManager.handleTouchAttempt cfg width height ⟨⟨1, t1⟩, t1⟩ t2
        (width - 5) (height - 5) =
      (⟨⟨0, 0⟩, 0⟩, false) ∧
    (∀ tg, cfg.touchTimeout < tg - t1 →
      SettingsManager.EVENT_DEBOUNCE_MS < tg - t1 →
      SettingsManager.handleTouchAttempt cfg width height ⟨⟨1, t1⟩, t1⟩ tg
          (width - 5) 5 =
        (⟨⟨0, 0⟩, 0⟩, false)) := by
  have hdb : SettingsManager.EVENT_DEBOUNCE_MS = (50 : Int) := rfl
  have hdetTL : SettingsManager.detectCornerTouch cfg width height 5 5 =
      some SettingsManager.Corner.topLeft := by
    simp only [SettingsManager.detectCornerTouch]
    rw [if_pos ⟨by omega, by omega⟩]
  have hdetTR : SettingsManager.detectCornerTouch cfg width height (width - 5) 5 =
      some SettingsManager.Corner.topRight := by
    simp only [SettingsManager.detectCornerTouch]
    rw [if_neg (by omega), if_pos ⟨by omega, by omega⟩]
  have hdetBR : SettingsManager.detectCornerTouch cfg width height (width - 5)
      (height - 5) = some SettingsManager.Corner.bottomRight := by
    simp only [SettingsManager.detectCornerTouch]
    rw [if_neg (by omega), if_neg (by omega), if_pos ⟨by omega, by omega⟩]
  refine ⟨?_, ?_, ?_, ?_, ?_⟩
  · rw [handleTouchAttempt_eval cfg width height ⟨⟨0, 0⟩, 0⟩ t1 5 5
      SettingsManager.Corner.topLeft
      (by simp only [SettingsManager.EVENT_DEBOUNCE_MS] at hd1 ⊢; simp; omega)
      (by simp) hdetTL]
    simp [SettingsManager.getExpectedCorner]
  · rw [handleTouchAttempt_eval cfg width height ⟨⟨1, t1⟩, t1⟩ t2 (width - 5) 5
      SettingsManager.Corner.topRight
      (by simp only [SettingsManager.EVENT_DEBOUNCE_MS] at hd2 ⊢; simp; omega)
      (by simp; omega) hdetTR]
    simp [SettingsManager.getExpectedCorner]
  · rw [handleTouchAttempt_eval cfg width height ⟨⟨2, t2⟩, t2⟩ t3 (width - 5)
      (height - 5) SettingsManager.Corner.bottomRight
      (by simp only [SettingsManager.EVENT_DEBOUNCE_MS] at hd3 ⊢; simp; omega)
      (by simp; omega) hdetBR]
    simp [SettingsManager.getExpectedCorner]
  · rw [handleTouchAttempt_eval cfg width height ⟨⟨1, t1⟩, t1⟩ t2 (width - 5)
      (height - 5) SettingsManager.Corner.bottomRight
      (by simp only [SettingsManager.EVENT_DEBOUNCE_MS] at hd2 ⊢; simp; omega)
      (by simp; omega) hdetBR]
    simp [SettingsManager.getExpectedCorner]
  · intro tg htg hdg
    rw [handleTouchAttempt_timeout_eval cfg width height ⟨⟨1, t1⟩, t1⟩ tg
      (width - 5) 5 SettingsManager.Corner.topRight
      (by simp only [SettingsManager.EVENT_DEBOUNCE_MS] at hdg ⊢; simp; omega)
      (by simp; omega) hdetTR]
    simp [SettingsManager.getExpectedCorner]

/-- Witness for C6 at the default configuration (radius 100, timeout
3000) on an 800x600 viewport with touches at times 100, 200, 300: the
three corner touches advance through steps 1 and 2 and only the third
activates, returning the step to 0. -/
theorem claim_C6_witness :
    SettingsManager.handleTouchAttempt ⟨100, 3000⟩ 800 600 ⟨⟨0, 0⟩, 0⟩ 100 5 5 =
      (⟨⟨1, 100⟩, 100⟩, false) ∧
    SettingsManager.handleTouchAttempt ⟨100, 3000⟩ 800 600 ⟨⟨1, 100⟩, 100⟩ 200 795 5 =
      (⟨⟨2, 200⟩, 200⟩, false) ∧
    SettingsManager.handleTouchAttempt ⟨100, 3000⟩ 800 600 ⟨⟨2, 200⟩, 200⟩ 300 795 595 =
      (⟨⟨0, 0⟩, 0⟩, true) := by
  have h := claim_C6_corner_sequence ⟨100, 3000⟩ 800 600 100 200 300
    (by decide) (by decide) (by decide) (by decide) (by decide) (by decide)
    (by decide) (by decide)
  exact ⟨h.1, h.2.1, h.2.2.1⟩

/-- C4 counterexample: a view transition request is made through
`navigateToView`, whose promise — the only thing the original caller
can await — fulfills with no error at enqueue time; when the queue
later dispatches the request and the animation protocol throws, the
internal routine rejects, but that rejection is not the value the
caller received.  The thrown error therefore does not reach the
original caller who requested the transition, refuting the claim at
this input. -/
theorem claim_C4_counterexample :
    (NavigationManager.navigateToView [] "detail" "immediate" 1000 "g1").2 =
      Except.ok () ∧
    (NavigationManager.navigateToView [] "detail" "immediate" 1000 "g1").1 =
      [⟨"g1", "navigation-manager", "navigate-to-view", "immediate", 1000, none,
        some "detail"⟩] ∧
    (NavigationManager.performViewNavigationInternal ["home", "detail"] true
        ⟨some "p", some "home", false⟩ "detail").result =
      Except.error "animation protocol threw" := by
  decide

/-- C4 as amended: when the target is registered, is not current, and
the animation protocol throws, both internal navigation routines exit
with isTransitioning = false (the reset sits in a finally clause) and
rethrow the error to the queue-dispatch boundary; the NotFound path
exits without ever having set the flag (state untouched); and the
promise returned to the caller of navigateToView fulfills at enqueue
time, so the thrown error reaches the dispatching handler, not the
original caller. -/
theorem claim_C4_transition_error_cleanup
    (views pages : List String) (s : NavigationManager.NavigationState)
    (viewId pageId : String)
    (q : List ApplicationEventQueueItem) (priority : String)
    (now : Int) (guid : String) :
    (viewId ∈ views → s.currentViewId ≠ some viewId →
      (NavigationManager.performViewNavigationInternal views true s viewId).result =
          Except.error "animation protocol threw" ∧
      (NavigationManager.performViewNavigationInternal views true s
          viewId).state.isTransitioning = false) ∧
    (pageId ∈ pages → s.currentPageId ≠ some pageId →
      (NavigationManager.performPageNavigationInternal pages true s pageId).result =
          Except.error "animation protocol threw" ∧
      (NavigationManager.performPageNavigationInternal pages true s
          pageId).state.isTransitioning = false) ∧
    (viewId ∉ views →
      (NavigationManager.performViewNavigationInternal views true s viewId).state = s) ∧
    (NavigationManager.navigateToView q viewId priority now guid).2 = Except.ok () := by
  refine ⟨?_, ?_, ?_, rfl⟩
  · intro hv hcv
    simp [NavigationManager.performViewNavigationInternal, hv, hcv]
  · intro hp hcp
    simp [NavigationManager.performPageNavigationInternal, hp, hcp]
  · intro hnv
    simp [NavigationManager.performViewNavigationInternal, hnv]

/-- Witness for C4 as amended at a registered, non-current view whose
animation protocol throws. -/
theorem claim_C4_witness :
    (NavigationManager.performViewNavigationInternal ["home", "detail"] true
        ⟨some "p", some "home", false⟩ "detail").result =
      Except.error "animation protocol threw" ∧
    (NavigationManager.performViewNavigationInternal ["home", "detail"] true
        ⟨some "p", some "home", false⟩ "detail").state.isTransitioning = false ∧
    (NavigationManager.navigateToView [] "detail" "immediate" 1000 "g1").2 =
      Except.ok () := by
  have h := claim_C4_transition_error_cleanup ["home", "detail"] []
    ⟨some "p", some "home", false⟩ "detail" "x" [] "immediate" 1000 "g1"
  exact ⟨(h.1 (by decide) (by decide)).1, (h.1 (by decide) (by decide)).2, h.2.2.2⟩

/-- C9, settled against the code as a bug: both deactivation handlers
await `navigateToView`, whose promise fulfills as soon as the request
is enqueued, so their catch blocks — the ones that would roll the
Active flag back to true and log — can never run for a transition
failure.  Evaluated at an active manager with exitBehavior `return`:
the handler clears both Active flags, enqueues the navigation request,
emits its deactivated event and logs nothing; when the dispatched
transition then throws, the internal routine rejects but no rollback
and no manager-side log happens — the flags stay false.  The last
conjunct shows the promise fulfills for every input, making the
rollback branch unreachable. -/
theorem claim_C9_rollback_unreachable :
    ScreensaverManager.handleScreensaverExit ⟨"return", some "start"⟩
        ⟨true, true, some "home"⟩ [] 1000 "g1" =
      ⟨⟨false, false, some "home"⟩,
        [⟨"g1", "navigation-manager", "navigate-to-view", "immediate", 1000, none,
          some "home"⟩],
        ["screensaver-deactivated"], false⟩ ∧
    SettingsManager.handleSettingsExit ⟨"return", some "start"⟩
        ⟨true, true, some "home"⟩ [] 1000 "g1" =
      ⟨⟨false, false, some "home"⟩,
        [⟨"g1", "navigation-manager", "navigate-to-view", "immediate", 1000, none,
          some "home"⟩],
        ["settings-deactivated"], false⟩ ∧
    (NavigationManager.performViewNavigationInternal ["home", "saver"] true
        ⟨none, some "saver", false⟩ "home").result =
      Except.error "animation protocol threw" ∧
    (∀ (q : List ApplicationEventQueueItem) (viewId priority : String)
        (now : Int) (guid : String),
      (NavigationManager.navigateToView q viewId priority now guid).2 =
        Except.ok ()) :=
  ⟨by decide, by decide, by decide, fun _ _ _ _ _ => rfl⟩

/-- C10: a successful page change (registered target, different from
the current page, protocol completes) sets currentPageId to the target
and clears currentViewId to null even though no view transition was
requested, and also clears isTransitioning; a view transition leaves
currentPageId unchanged on every path. -/
theorem claim_C10_page_clears_view
    (pages views : List String) (s : NavigationManager.NavigationState)
    (pageId viewId : String) (animThrows : Bool) :
    (pageId ∈ pages → s.currentPageId ≠ some pageId →
      (NavigationManager.performPageNavigationInternal pages false s pageId).state =
        ⟨some pageId, none, false⟩ ∧
      (NavigationManager.performPageNavigationInternal pages false s pageId).result =
        Except.ok ()) ∧
    (NavigationManager.performViewNavigationInternal views animThrows s
        viewId).state.currentPageId = s.currentPageId := by
  constructor
  · intro hp hcp
    simp [NavigationManager.performPageNavigationInternal, hp, hcp]
  · by_cases hv : viewId ∈ views
    · by_cases hcv : s.currentViewId = some viewId
      · simp [NavigationManager.performViewNavigationInternal, hv, hcv]
      · cases animThrows <;>
          simp [NavigationManager.performViewNavigationInternal, hv, hcv]
    · simp [NavigationManager.performViewNavigationInternal, hv]

/-- Witness for C10: navigating from page p1 to the registered page p2
clears the current view v1 to null, and a throwing view transition on
the same state leaves the current page untouched. -/
theorem claim_C10_witness :
    (NavigationManager.performPageNavigationInternal ["p1", "p2"] false
        ⟨some "p1", some "v1", false⟩ "p2").state =
      ⟨some "p2", none, false⟩ ∧
    (NavigationManager.performViewNavigationInternal ["v1", "v2"] true
        ⟨some "p1", some "v1", false⟩ "v2").state.currentPageId = some "p1" := by
  have h := claim_C10_page_clears_view ["p1", "p2"] ["v1", "v2"]
    ⟨some "p1", some "v1", false⟩ "p2" "v2" true
  exact ⟨(h.1 (by decide) (by decide)).1, h.2⟩

end Interactiv
